import Mathlib

/-!
Verification of the shared bootstrap/support library `bin/scr.py`.

The Python module is shallowly embedded: strings become `List Char`,
the POSIX path functions it calls (`os.path.join`, `os.path.normpath`,
`os.path.abspath`, `os.path.expanduser`, `os.path.dirname`) are translated
from CPython `posixpath` (the library runs on POSIX: `os.sep` is the slash
and `os.altsep` is `None`, so `_fspath_seps` is the single slash character),
the filesystem is an explicit record of query functions, and every Python
exception becomes a constructor of an error type.  Process-wide mutable
state (the module globals and `sys.path`) is passed explicitly.
-/

-- ===================================================================
-- Characters and strings (Python `str` becomes `List Char`)
-- ===================================================================

/-- The single path separator of `_fspath_seps` on POSIX. -/
def sepChar : Char := '/'

/-- Opening half of the token marker character (left curly brace). -/
def lbrace : Char := '\x7b'

/-- Closing half of the token marker character (right curly brace). -/
def rbrace : Char := '\x7d'

/-- A single-quote character, used inside error message text. -/
def squote : Char := '\x27'

/-- Python `str.isdecimal` on one ASCII character: a decimal digit. -/
def isDigitCh (c : Char) : Bool := 48 ≤ c.toNat && c.toNat ≤ 57

/-- Python whitespace as stripped by `str.strip()` (ASCII portion). -/
def isSpaceCh (c : Char) : Bool :=
  c.toNat = 32 || c.toNat = 9 || c.toNat = 10 || c.toNat = 13 ||
  c.toNat = 11 || c.toNat = 12

/-- Python `str.lower` on one ASCII character. -/
def toLowerCh (c : Char) : Char :=
  if 65 ≤ c.toNat && c.toNat ≤ 90 then Char.ofNat (c.toNat + 32) else c

/-- Python `str.upper` on one ASCII character. -/
def toUpperCh (c : Char) : Char :=
  if 97 ≤ c.toNat && c.toNat ≤ 122 then Char.ofNat (c.toNat - 32) else c

/-- Python `str.lower`. -/
def pyLower (s : List Char) : List Char := s.map toLowerCh

/-- Python `str.upper`. -/
def pyUpper (s : List Char) : List Char := s.map toUpperCh

/-- Python `str.strip()`: drop whitespace from both ends. -/
def pyStrip (s : List Char) : List Char :=
  ((s.dropWhile isSpaceCh).reverse.dropWhile isSpaceCh).reverse

/-- Python `s.split(sep)` for a one-character separator: the list of
(possibly empty) segments; splitting the empty string yields one empty
segment, exactly as in Python. -/
def splitOnCh (sep : Char) : List Char → List (List Char)
  | [] => [[]]
  | c :: cs =>
    match splitOnCh sep cs with
    | [] => [[]]
    | s :: ss => if c = sep then [] :: s :: ss else (c :: s) :: ss

/-- Python `sep.join(parts)` for a one-character separator. -/
def joinSep (sep : Char) : List (List Char) → List Char
  | [] => []
  | [s] => s
  | s :: rest => s ++ sep :: joinSep sep rest

-- ===================================================================
-- Elementary lemmas about split and join
-- ===================================================================

theorem splitOnCh_ne_nil (sep : Char) (s : List Char) : splitOnCh sep s ≠ [] := by
  cases s with
  | nil => simp [splitOnCh]
  | cons c cs =>
    simp only [splitOnCh]
    rcases h : splitOnCh sep cs with _ | ⟨t, ts⟩
    · simp
    · by_cases hc : c = sep <;> simp [hc]

theorem splitOnCh_cons_sep (sep : Char) (cs : List Char) :
    splitOnCh sep (sep :: cs) = [] :: splitOnCh sep cs := by
  simp only [splitOnCh]
  rcases h : splitOnCh sep cs with _ | ⟨t, ts⟩
  · exact absurd h (splitOnCh_ne_nil sep cs)
  · simp

theorem splitOnCh_cons_ne (sep c : Char) (cs : List Char) (hc : c ≠ sep) :
    splitOnCh sep (c :: cs) =
      (c :: (splitOnCh sep cs).headI) :: (splitOnCh sep cs).tail := by
  simp only [splitOnCh]
  rcases h : splitOnCh sep cs with _ | ⟨t, ts⟩
  · exact absurd h (splitOnCh_ne_nil sep cs)
  · simp [hc]

theorem joinSep_splitOnCh (sep : Char) (s : List Char) :
    joinSep sep (splitOnCh sep s) = s := by
  induction s with
  | nil => simp [splitOnCh, joinSep]
  | cons c cs ih =>
    simp only [splitOnCh]
    rcases h : splitOnCh sep cs with _ | ⟨t, ts⟩
    · exact absurd h (splitOnCh_ne_nil sep cs)
    · rw [h] at ih
      by_cases hc : c = sep
      · subst hc
        simpa [joinSep] using ih
      · simp only [if_neg hc]
        cases ts with
        | nil => simpa [joinSep] using congrArg (c :: ·) ih
        | cons u us =>
          simp only [joinSep] at ih ⊢
          simpa using congrArg (c :: ·) ih

theorem splitOnCh_no_sep (sep : Char) (s : List Char) (h : sep ∉ s) :
    splitOnCh sep s = [s] := by
  induction s with
  | nil => simp [splitOnCh]
  | cons c cs ih =>
    have hc : c ≠ sep := fun hcc => h (hcc ▸ List.mem_cons_self c cs)
    have hcs : sep ∉ cs := fun hm => h (List.mem_cons_of_mem _ hm)
    simp only [splitOnCh, ih hcs]
    simp [hc]

theorem splitOnCh_append_sep (sep : Char) (a b : List Char) :
    splitOnCh sep (a ++ sep :: b) = splitOnCh sep a ++ splitOnCh sep b := by
  induction a with
  | nil =>
    rw [List.nil_append, splitOnCh_cons_sep]
    simp [splitOnCh]
  | cons c cs ih =>
    by_cases hc : c = sep
    · subst hc
      rw [List.cons_append, splitOnCh_cons_sep, splitOnCh_cons_sep, ih]
      simp
    · rw [List.cons_append, splitOnCh_cons_ne sep c _ hc, ih,
        splitOnCh_cons_ne sep c cs hc]
      rcases h : splitOnCh sep cs with _ | ⟨t, ts⟩
      · exact absurd h (splitOnCh_ne_nil sep cs)
      · simp

theorem splitOnCh_join (sep : Char) (parts : List (List Char))
    (hne : parts ≠ []) (hs : ∀ p ∈ parts, sep ∉ p) :
    splitOnCh sep (joinSep sep parts) = parts := by
  induction parts with
  | nil => exact absurd rfl hne
  | cons p ps ih =>
    cases ps with
    | nil =>
      simp only [joinSep]
      exact splitOnCh_no_sep sep p (hs p (List.mem_cons_self p []))
    | cons q qs =>
      have hjoin : joinSep sep (p :: q :: qs) = p ++ sep :: joinSep sep (q :: qs) := rfl
      rw [hjoin]
      have hp : sep ∉ p := hs p (List.mem_cons_self p _)
      calc splitOnCh sep (p ++ sep :: joinSep sep (q :: qs))
          = splitOnCh sep p ++ splitOnCh sep (joinSep sep (q :: qs)) :=
            splitOnCh_append_sep sep p _
        _ = [p] ++ (q :: qs) := by
            rw [splitOnCh_no_sep sep p hp,
              ih (by simp) (fun r hr => hs r (List.mem_cons_of_mem _ hr))]
        _ = p :: q :: qs := rfl

-- ===================================================================
-- Decimal rendering and parsing of natural numbers
-- (Python `str(n)` and `int(s)` on digit strings)
-- ===================================================================

/-- One decimal digit value as a character. -/
def digitToCh (d : Nat) : Char := Char.ofNat (48 + d)

/-- The digit value of a character (Python `int` on one digit). -/
def chToDigit (c : Char) : Nat := c.toNat - 48

/-- Fuel-indexed core of decimal rendering: most significant digit first. -/
def natToCharsAux : Nat → Nat → List Char
  | 0, _ => []
  | fuel + 1, n =>
    if n = 0 then [] else natToCharsAux fuel (n / 10) ++ [digitToCh (n % 10)]

/-- Python `str(n)` for a non-negative integer. -/
def natToChars (n : Nat) : List Char :=
  if n = 0 then [digitToCh 0] else natToCharsAux n n

/-- Python `int(s)` for a string of decimal digits. -/
def charsToNat (s : List Char) : Nat :=
  s.foldl (fun a c => 10 * a + chToDigit c) 0

/-- Python `str.isdecimal`: nonempty and all characters decimal digits. -/
def isDecStr (s : List Char) : Bool := !s.isEmpty && s.all isDigitCh

-- ===================================================================
-- The version codec of `scr.py`
-- ===================================================================

/-- `semver_to_vsn` from `scr.py`: split on the dot, keep the purely
decimal segments in order, convert each to an integer. -/
def semver_to_vsn (vstr : List Char) : List Nat :=
  ((splitOnCh '.' vstr).filter isDecStr).map charsToNat

/-- `vsn_to_semver` from `scr.py`: join decimal renderings with dots. -/
def vsn_to_semver (vsn : List Nat) : List Char :=
  joinSep '.' (vsn.map natToChars)

-- ===================================================================
-- Lemmas about the decimal codec
-- ===================================================================

theorem digitToCh_props : ∀ d < 10,
    (digitToCh d).toNat = 48 + d ∧ isDigitCh (digitToCh d) = true := by decide

theorem natToCharsAux_eq_digits :
    ∀ fuel n, n ≤ fuel →
      natToCharsAux fuel n = ((Nat.digits 10 n).map digitToCh).reverse := by
  intro fuel
  induction fuel with
  | zero =>
    intro n hn
    interval_cases n
    simp [natToCharsAux]
  | succ fuel ih =>
    intro n hn
    by_cases h0 : n = 0
    · subst h0
      simp [natToCharsAux]
    · have hpos : 0 < n := Nat.pos_of_ne_zero h0
      have hdiv : n / 10 ≤ fuel := by
        have : n / 10 < n := Nat.div_lt_self hpos (by norm_num)
        omega
      rw [natToCharsAux, if_neg h0, ih (n / 10) hdiv,
        Nat.digits_def' (by norm_num : 1 < 10) hpos]
      simp

theorem natToChars_eq_digits (n : Nat) (hn : n ≠ 0) :
    natToChars n = ((Nat.digits 10 n).map digitToCh).reverse := by
  rw [natToChars, if_neg hn]
  exact natToCharsAux_eq_digits n n le_rfl

theorem natToChars_all_digits (n : Nat) : (natToChars n).all isDigitCh = true := by
  by_cases hn : n = 0
  · subst hn; decide
  · rw [natToChars_eq_digits n hn]
    simp only [List.all_eq_true, List.mem_reverse, List.mem_map]
    rintro c ⟨d, hd, rfl⟩
    exact (digitToCh_props d (Nat.digits_lt_base (by norm_num) hd)).2

theorem natToChars_ne_nil (n : Nat) : natToChars n ≠ [] := by
  by_cases hn : n = 0
  · subst hn; decide
  · rw [natToChars_eq_digits n hn]
    simp [Nat.digits_ne_nil_iff_ne_zero, hn]

theorem foldl_mul_add (L : List Nat) (a : Nat) :
    L.reverse.foldl (fun x d => 10 * x + d) a =
      a * 10 ^ L.length + Nat.ofDigits 10 L := by
  induction L generalizing a with
  | nil => simp
  | cons d T ih =>
    rw [List.reverse_cons, List.foldl_append, ih]
    simp only [List.foldl_cons, List.foldl_nil, Nat.ofDigits_cons, List.length_cons]
    ring

theorem charsToNat_eq_ofDigits (s : List Char) :
    charsToNat s = Nat.ofDigits 10 ((s.map chToDigit).reverse) := by
  have h1 : charsToNat s = (s.map chToDigit).foldl (fun x d => 10 * x + d) 0 := by
    rw [charsToNat, List.foldl_map]
  rw [h1, ← List.reverse_reverse (s.map chToDigit),
    foldl_mul_add ((s.map chToDigit).reverse) 0]
  simp

theorem chToDigit_digitToCh (d : Nat) (hd : d < 10) :
    chToDigit (digitToCh d) = d := by
  have := (digitToCh_props d hd).1
  simp [chToDigit, this]

theorem digitToCh_chToDigit (c : Char) (hc : isDigitCh c = true) :
    digitToCh (chToDigit c) = c := by
  simp only [isDigitCh, Bool.and_eq_true, decide_eq_true_eq] at hc
  have h48 : 48 + (c.toNat - 48) = c.toNat := by omega
  rw [digitToCh, chToDigit, h48, Char.ofNat_toNat]

theorem charsToNat_natToChars (n : Nat) : charsToNat (natToChars n) = n := by
  by_cases hn : n = 0
  · subst hn; decide
  · rw [natToChars_eq_digits n hn, charsToNat_eq_ofDigits]
    have hmap : ((((Nat.digits 10 n).map digitToCh).reverse).map chToDigit).reverse
        = Nat.digits 10 n := by
      rw [← List.map_reverse, List.reverse_reverse, List.map_map]
      have : ∀ d ∈ Nat.digits 10 n, (chToDigit ∘ digitToCh) d = id d := by
        intro d hd
        exact chToDigit_digitToCh d (Nat.digits_lt_base (by norm_num) hd)
      rw [List.map_congr_left this, List.map_id]
    rw [hmap, Nat.ofDigits_digits]

/-- Test for the zero digit character. -/
def isZeroCh (c : Char) : Bool := c == '0'

/-- Canonical form of a decimal segment: leading zeros removed, a
run of only zeros collapsing to a single zero digit. -/
def stripZeros (s : List Char) : List Char :=
  if s.dropWhile isZeroCh = [] then [digitToCh 0]
  else s.dropWhile isZeroCh

theorem foldl_zeros (z : List Char) (hz : ∀ c ∈ z, isZeroCh c = true) :
    z.foldl (fun a c => 10 * a + chToDigit c) 0 = 0 := by
  induction z with
  | nil => rfl
  | cons c cs ih =>
    have hc : c = '0' := by
      have := hz c (List.mem_cons_self c cs)
      simpa [isZeroCh] using this
    subst hc
    simp only [List.foldl_cons]
    have : (10 * 0 + chToDigit '0') = 0 := by decide
    rw [this]
    exact ih (fun d hd => hz d (List.mem_cons_of_mem _ hd))

theorem charsToNat_dropZeros (s : List Char) :
    charsToNat s = charsToNat (s.dropWhile isZeroCh) := by
  conv_lhs => rw [charsToNat,
    ← List.takeWhile_append_dropWhile isZeroCh s]
  rw [List.foldl_append,
    foldl_zeros _ (fun c hc => List.mem_takeWhile_imp hc)]
  rfl

theorem dropWhile_head_not {p : Char → Bool} {s : List Char} {c : Char}
    {t : List Char} (h : s.dropWhile p = c :: t) : p c = false := by
  induction s with
  | nil => simp [List.dropWhile] at h
  | cons a as ih =>
    by_cases ha : p a
    · rw [List.dropWhile_cons_of_pos ha] at h
      exact ih h
    · rw [List.dropWhile_cons_of_neg ha] at h
      cases h
      exact Bool.of_not_eq_true ha

theorem le_foldl_decimal (l : List Char) (a : Nat) :
    a ≤ l.foldl (fun x c => 10 * x + chToDigit c) a := by
  induction l generalizing a with
  | nil => exact le_rfl
  | cons c cs ih =>
    calc a ≤ 10 * a + chToDigit c := by omega
      _ ≤ _ := ih _

theorem chToDigit_pos (c : Char) (hdig : isDigitCh c = true)
    (hc0 : isZeroCh c = false) : 0 < chToDigit c := by
  simp only [isDigitCh, Bool.and_eq_true, decide_eq_true_eq] at hdig
  have hne : c ≠ '0' := by simpa [isZeroCh] using hc0
  have : c.toNat ≠ 48 := by
    intro h48
    apply hne
    have := Char.ofNat_toNat c
    rw [h48] at this
    exact this.symm ▸ rfl
  simp only [chToDigit]
  omega

theorem natToChars_charsToNat_strip (s : List Char) (hdec : isDecStr s = true) :
    natToChars (charsToNat s) = stripZeros s := by
  simp only [isDecStr, Bool.and_eq_true, Bool.not_eq_true', List.isEmpty_eq_false,
    List.all_eq_true] at hdec
  rcases ht : s.dropWhile isZeroCh with _ | ⟨c, t'⟩
  · rw [charsToNat_dropZeros, ht]
    simp [stripZeros, ht, charsToNat, natToChars]
  · have hsub : (c :: t').Sublist s := ht ▸ List.dropWhile_sublist _
    have hall : ∀ x ∈ c :: t', isDigitCh x = true :=
      fun x hx => hdec.2 x (hsub.mem hx)
    have hc0 : isZeroCh c = false := dropWhile_head_not ht
    have hcpos : 0 < chToDigit c :=
      chToDigit_pos c (hall c (List.mem_cons_self c t')) hc0
    have hvpos : 0 < charsToNat (c :: t') := by
      have : chToDigit c ≤ charsToNat (c :: t') := by
        simpa [charsToNat] using le_foldl_decimal t' (chToDigit c)
      omega
    rw [charsToNat_dropZeros, ht]
    have hvne : charsToNat (c :: t') ≠ 0 := Nat.pos_iff_ne_zero.mp hvpos
    rw [natToChars_eq_digits _ hvne, charsToNat_eq_ofDigits]
    have hDr : Nat.digits 10 (Nat.ofDigits 10 (((c :: t').map chToDigit).reverse))
        = ((c :: t').map chToDigit).reverse := by
      apply Nat.digits_ofDigits 10 (by norm_num)
      · intro d hd
        simp only [List.mem_reverse, List.mem_map] at hd
        obtain ⟨x, hx, rfl⟩ := hd
        have := hall x hx
        simp only [isDigitCh, Bool.and_eq_true, decide_eq_true_eq] at this
        simp only [chToDigit]
        omega
      · intro h
        have hlast : (((c :: t').map chToDigit).reverse).getLast h = chToDigit c := by
          have h1 : (((c :: t').map chToDigit).reverse).getLast? = some (chToDigit c) := by
            rw [List.getLast?_reverse]
            simp
          have h2 : (((c :: t').map chToDigit).reverse).getLast? =
              some ((((c :: t').map chToDigit).reverse).getLast h) :=
            List.getLast?_eq_getLast _ h
          rw [h1] at h2
          exact (Option.some_injective _ h2).symm
        rw [hlast]
        omega
    rw [hDr, ← List.map_reverse, List.reverse_reverse, List.map_map]
    have : ∀ x ∈ c :: t', (digitToCh ∘ chToDigit) x = id x := by
      intro x hx
      exact digitToCh_chToDigit x (hall x hx)
    rw [List.map_congr_left this, List.map_id, stripZeros, ht]
    simp

theorem dot_not_mem_digits (p : List Char) (hp : p.all isDigitCh = true) :
    '.' ∉ p := by
  intro hmem
  have := List.all_eq_true.mp hp '.' hmem
  simp [isDigitCh] at this

/-- The concrete parse example from the specification. -/
def exampleSemverStr : List Char := "1.02.x.3".toList

/-- The concrete format example from the specification. -/
def exampleVsnStr : List Char := "1.2.3".toList

/-- C3: for every finite sequence of non-negative integers,
parsing the formatted string gives back the sequence:
`semver_to_vsn (vsn_to_semver v) = v`. -/
theorem semver_roundtrip_parse_format (v : List Nat) :
    semver_to_vsn (vsn_to_semver v) = v := by
  cases v with
  | nil => decide
  | cons n ns =>
    have hsplit : splitOnCh '.' (joinSep '.' ((n :: ns).map natToChars))
        = (n :: ns).map natToChars := by
      apply splitOnCh_join
      · simp
      · intro p hp
        simp only [List.mem_map] at hp
        obtain ⟨m, _, rfl⟩ := hp
        exact dot_not_mem_digits _ (natToChars_all_digits m)
    have hfilter : ((n :: ns).map natToChars).filter isDecStr
        = (n :: ns).map natToChars := by
      rw [List.filter_eq_self]
      intro p hp
      simp only [List.mem_map] at hp
      obtain ⟨m, _, rfl⟩ := hp
      simp only [isDecStr, Bool.and_eq_true, Bool.not_eq_true',
        List.isEmpty_eq_false]
      exact ⟨natToChars_ne_nil m, natToChars_all_digits m⟩
    rw [semver_to_vsn, vsn_to_semver, hsplit, hfilter, List.map_map]
    have : ∀ m ∈ n :: ns, (charsToNat ∘ natToChars) m = id m := by
      intro m _
      exact charsToNat_natToChars m
    rw [List.map_congr_left this, List.map_id]

/-- C7: the parser splits on the dot, keeps exactly the purely decimal
segments in order, and converts each to its value, never failing on
non-numeric segments; `parse "1.02.x.3" = [1, 2, 3]`, formatting that
back gives `"1.2.3"`, and in general formatting a parse yields the kept
decimal segments with leading zeros stripped, joined by dots. -/
theorem semver_parse_format_normalizes :
    semver_to_vsn exampleSemverStr = [1, 2, 3]
    ∧ vsn_to_semver [1, 2, 3] = exampleVsnStr
    ∧ ∀ s, vsn_to_semver (semver_to_vsn s) =
        joinSep '.' (((splitOnCh '.' s).filter isDecStr).map stripZeros) := by
  refine ⟨by decide, by decide, ?_⟩
  intro s
  rw [semver_to_vsn, vsn_to_semver, List.map_map]
  have : ∀ p ∈ (splitOnCh '.' s).filter isDecStr,
      (natToChars ∘ charsToNat) p = stripZeros p := by
    intro p hp
    have := (List.mem_filter.mp hp).2
    exact natToChars_charsToNat_strip p this
  rw [List.map_congr_left this]

-- ===================================================================
-- POSIX path functions used by `scr.py`
-- (translated from CPython `posixpath`; `os.sep` is the slash)
-- ===================================================================

/-- `os.path.join` for two arguments (POSIX): an absolute second part
replaces the first; otherwise one separator is inserted unless the first
part is empty or already ends with a separator. -/
def pyJoin (a b : List Char) : List Char :=
  if b.take 1 = [sepChar] then b
  else if a = [] ∨ a.getLast? = some sepChar then a ++ b
  else a ++ sepChar :: b

/-- One step of the component scan inside `os.path.normpath`. -/
def npStep (initSlashes : Nat) (acc : List (List Char)) (comp : List Char) :
    List (List Char) :=
  if comp = [] ∨ comp = ['.'] then acc
  else if comp ≠ ['.', '.'] ∨ (initSlashes = 0 ∧ acc = []) ∨
      (acc ≠ [] ∧ acc.getLast? = some ['.', '.']) then
    acc ++ [comp]
  else if acc ≠ [] then acc.dropLast
  else acc

/-- The number of leading separators `os.path.normpath` preserves:
POSIX keeps exactly two initial slashes as special, any other run
collapses to one. -/
def initialSlashes (p : List Char) : Nat :=
  if p.take 1 = [sepChar] then
    (if p.take 2 = [sepChar, sepChar] ∧ p.take 3 ≠ [sepChar, sepChar, sepChar]
      then 2 else 1)
  else 0

/-- The rebuilt path inside `os.path.normpath`, before the final
empty-result check. -/
def normpathCore (p : List Char) : List Char :=
  List.replicate (initialSlashes p) sepChar ++
    joinSep sepChar ((splitOnCh sepChar p).foldl (npStep (initialSlashes p)) [])

/-- `os.path.normpath` (POSIX): collapse repeated separators and
resolve single-dot and double-dot components; one or two initial
slashes are preserved. -/
def normpath (p : List Char) : List Char :=
  if p = [] then ['.']
  else if normpathCore p = [] then ['.']
  else normpathCore p

/-- `os.path.abspath`: join a relative path onto the current working
directory, then normalize. -/
def abspath (cwd p : List Char) : List Char :=
  if p.take 1 = [sepChar] then normpath p else normpath (pyJoin cwd p)

/-- `os.path.expanduser` (POSIX): a leading lone tilde expands to the
home directory with trailing separators stripped.  A `~user` form looks
the user up in the account database; that lookup is outside the
embedded state and is modelled as an unknown user, for which CPython
returns the path unchanged. -/
def expanduser (home p : List Char) : List Char :=
  if p.take 1 ≠ ['~'] then p
  else
    let i : Nat :=
      match (p.drop 1).findIdx? (fun c => c == sepChar) with
      | some j => j + 1
      | none => p.length
    if i = 1 then
      let uh := (home.reverse.dropWhile (fun c => c == sepChar)).reverse
      let r := uh ++ p.drop i
      if r = [] then [sepChar] else r
    else p

/-- `os.path.dirname` (POSIX): everything up to the final separator,
with trailing separators stripped unless the head is all separators. -/
def dirname (p : List Char) : List Char :=
  let i : Nat :=
    match p.reverse.findIdx? (fun c => c == sepChar) with
    | some j => p.length - j
    | none => 0
  let head := p.take i
  if head ≠ [] ∧ head ≠ List.replicate head.length sepChar then
    (head.reverse.dropWhile (fun c => c == sepChar)).reverse
  else head

-- ===================================================================
-- Clean absolute paths: paths on which `normpath` is the identity
-- ===================================================================

/-- A path component with no special meaning to `normpath`. -/
def cleanComp (c : List Char) : Bool :=
  !(decide (c = []) || decide (c = ['.']) || decide (c = ['.', '.']))

/-- An absolute path with a single leading slash whose components are
all nonempty and free of dot and double-dot. -/
def cleanAbs (p : List Char) : Bool :=
  decide (p.take 1 = [sepChar]) && !decide (p.take 2 = [sepChar, sepChar]) &&
    (splitOnCh sepChar (p.drop 1)).all cleanComp

theorem foldl_npStep_clean (i : Nat) (l : List (List Char))
    (hl : ∀ c ∈ l, cleanComp c = true) :
    ∀ acc, l.foldl (npStep i) acc = acc ++ l := by
  induction l with
  | nil => intro acc; simp
  | cons c cs ih =>
    intro acc
    have hc := hl c (List.mem_cons_self c cs)
    simp only [cleanComp, Bool.not_eq_true', Bool.or_eq_false_iff,
      decide_eq_false_iff_not] at hc
    obtain ⟨⟨hce, hcd⟩, hcdd⟩ := hc
    have hstep : npStep i acc c = acc ++ [c] := by
      rw [npStep, if_neg (fun hor => hor.elim hce hcd), if_pos (Or.inl hcdd)]
    rw [List.foldl_cons, hstep, ih (fun d hd => hl d (List.mem_cons_of_mem _ hd))]
    simp

theorem cleanAbs_shape (p : List Char) (h : cleanAbs p = true) :
    ∃ c2 q, p = sepChar :: c2 :: q ∧ c2 ≠ sepChar ∧
      (splitOnCh sepChar (c2 :: q)).all cleanComp = true := by
  simp only [cleanAbs, Bool.and_eq_true, decide_eq_true_eq, Bool.not_eq_true',
    decide_eq_false_iff_not] at h
  obtain ⟨⟨h1, h2⟩, h3⟩ := h
  cases p with
  | nil => simp at h1
  | cons c q0 =>
    have hc : c = sepChar := by simpa using h1
    subst hc
    cases q0 with
    | nil =>
      simp only [List.drop_succ_cons, List.drop_zero] at h3
      simp [splitOnCh, cleanComp] at h3
    | cons c2 q =>
      refine ⟨c2, q, rfl, ?_, by simpa using h3⟩
      intro hc2
      subst hc2
      simp at h2

theorem initialSlashes_clean (c2 : Char) (q : List Char) (hc2 : c2 ≠ sepChar) :
    initialSlashes (sepChar :: c2 :: q) = 1 := by
  rw [initialSlashes,
    if_pos (show List.take 1 (sepChar :: c2 :: q) = [sepChar] from rfl), if_neg]
  intro hcon
  exact hc2 (by simpa using hcon.1)

theorem normpathCore_clean (p : List Char) (h : cleanAbs p = true) :
    normpathCore p = p := by
  obtain ⟨c2, q, rfl, hc2, hall⟩ := cleanAbs_shape p h
  rw [normpathCore, initialSlashes_clean c2 q hc2, splitOnCh_cons_sep]
  have hfold : (([] :: splitOnCh sepChar (c2 :: q)).foldl (npStep 1) []) =
      splitOnCh sepChar (c2 :: q) := by
    rw [List.foldl_cons]
    have h0 : npStep 1 [] [] = [] := by rw [npStep, if_pos (Or.inl rfl)]
    rw [h0, foldl_npStep_clean 1 _ (fun c hc => List.all_eq_true.mp hall c hc) []]
    simp
  rw [hfold, joinSep_splitOnCh]
  rfl

theorem normpath_clean (p : List Char) (h : cleanAbs p = true) :
    normpath p = p := by
  have hcore := normpathCore_clean p h
  obtain ⟨c2, q, rfl, hc2, hall⟩ := cleanAbs_shape p h
  rw [normpath, if_neg (by simp), if_neg (by rw [hcore]; simp), hcore]

theorem cleanAbs_append (p b : List Char) (hp : cleanAbs p = true)
    (hb : (splitOnCh sepChar b).all cleanComp = true) :
    cleanAbs (p ++ sepChar :: b) = true := by
  obtain ⟨c2, q, rfl, hc2, hall⟩ := cleanAbs_shape p hp
  simp only [cleanAbs, Bool.and_eq_true, decide_eq_true_eq, Bool.not_eq_true',
    decide_eq_false_iff_not]
  refine ⟨⟨rfl, ?_⟩, ?_⟩
  · intro hcon
    exact hc2 (by simpa using hcon)
  · have hdrop : (sepChar :: c2 :: q ++ sepChar :: b).drop 1 =
        (c2 :: q) ++ sepChar :: b := rfl
    rw [hdrop, splitOnCh_append_sep]
    simp [hall, hb]

theorem abspath_clean (cwd p : List Char) (h : cleanAbs p = true) :
    abspath cwd p = p := by
  obtain ⟨c2, q, rfl, hc2, hall⟩ := cleanAbs_shape p h
  have htake : List.take 1 (sepChar :: c2 :: q) = [sepChar] := rfl
  rw [abspath, if_pos htake]
  exact normpath_clean _ h

-- ===================================================================
-- Python exceptions raised by `scr.py` as explicit values
-- ===================================================================

/-- The exceptions the embedded code can raise: the two parameter error
classes of `scr.py`, the builtin kinds they collapse to outside debug
mode, and the raw builtin errors that propagate unwrapped. -/
inductive PyErr where
  | keyError : PyErr
  | indexError : PyErr
  | typeError : List Char → PyErr
  | valueError : List Char → PyErr
  | paramTypeError : List Char → PyErr
  | paramValueError : List Char → PyErr
  | fileExistsError : PyErr
  | fileNotFoundError : PyErr
deriving DecidableEq

-- ===================================================================
-- Module globals of `scr.py` (the pseudo-constants)
-- ===================================================================

/-- The module-level pseudo-constants set by `_init_module`, passed
explicitly because LOG_DIR may be reassigned by `init_log`. -/
structure Globals where
  BIN_DIR : List Char
  CUR_DIR : List Char
  ETC_DIR : List Char
  LIB_DIR : List Char
  LOG_DIR : List Char
  REL_DIR : List Char
  SCH_DIR : List Char
  PROG_NAME : List Char

/-- The token key for the binary directory. -/
def keyBin : List Char := "bin".toList

/-- The token key for the configuration directory. -/
def keyEtc : List Char := "etc".toList

/-- The token key for the library directory. -/
def keyLib : List Char := "lib".toList

/-- The token key for the log directory. -/
def keyLog : List Char := "log".toList

/-- The token key for the program name. -/
def keyProg : List Char := "prog".toList

/-- The token key for the release root. -/
def keyRel : List Char := "rel".toList

/-- The token key for the schema directory. -/
def keySchema : List Char := "schema".toList

/-- The per-use `stache_map` dictionary lookup of `resolve_conf_path`:
the fixed seven-entry table from token name to base directory. -/
def stacheLookup (g : Globals) (k : List Char) : Option (List Char) :=
  if k = keyBin then some g.BIN_DIR
  else if k = keyEtc then some g.ETC_DIR
  else if k = keyLib then some g.LIB_DIR
  else if k = keyLog then some g.LOG_DIR
  else if k = keyProg then some g.PROG_NAME
  else if k = keyRel then some g.REL_DIR
  else if k = keySchema then some g.SCH_DIR
  else none

/-- Python `path.index` of the two-character closing marker: the index
of the first occurrence of two adjacent closing braces, if any. -/
def findMarker : List Char → Option Nat
  | [] => none
  | [_] => none
  | a :: b :: rest =>
    if a = rbrace ∧ b = rbrace then some 0
    else (findMarker (b :: rest)).map (· + 1)

/-- Message of the `ValueError` that Python `str.index` raises when the
substring is absent. -/
def msgSubstringNotFound : List Char := "substring not found".toList

/-- The token branch of `resolve_conf_path` after the closing marker has
been located: dictionary lookup of the token, subscript of the first
tail character, then direct concatenation or a join, made absolute. -/
def resolveToken (cwd : List Char) (g : Globals) (substr tl : List Char) :
    Except PyErr (List Char) :=
  match stacheLookup g substr with
  | none => .error .keyError
  | some repl =>
    match tl with
    | [] => .error .indexError
    | t0 :: trest =>
      if t0 = sepChar then .ok (abspath cwd (repl ++ t0 :: trest))
      else .ok (abspath cwd (pyJoin repl (t0 :: trest)))

/-- `resolve_conf_path` from `scr.py`: expand a leading tilde or a
leading brace-delimited token, then return an absolute path.  An
unrecognized token is a raw `KeyError` from the dictionary lookup; a
missing closing marker is the `ValueError` of `str.index`; an empty
tail after the closing marker makes the subscript `tail[0]` raise
`IndexError`. -/
def resolve_conf_path (cwd home : List Char) (g : Globals) (path : List Char) :
    Except PyErr (List Char) :=
  if path.take 1 = ['~'] then .ok (abspath cwd (expanduser home path))
  else if path.take 2 = [lbrace, lbrace] then
    match findMarker path with
    | none => .error (.valueError msgSubstringNotFound)
    | some subend =>
      resolveToken cwd g (pyLower (pyStrip ((path.drop 2).take (subend - 2))))
        (path.drop (subend + 2))
  else .ok (abspath cwd path)

-- ===================================================================
-- Reduction of `resolve_conf_path` on marker-prefixed input
-- ===================================================================

theorem findMarker_prefix (s r : List Char) (h : rbrace ∉ s) :
    findMarker (s ++ rbrace :: rbrace :: r) = some s.length := by
  induction s with
  | nil => simp [findMarker]
  | cons c cs ih =>
    have hc : c ≠ rbrace := fun hcc => h (hcc ▸ List.mem_cons_self c cs)
    have hcs : rbrace ∉ cs := fun hm => h (List.mem_cons_of_mem _ hm)
    cases cs with
    | nil =>
      simp only [List.nil_append, List.cons_append, findMarker]
      simp [hc]
    | cons d ds =>
      have hstep : findMarker (c :: ((d :: ds) ++ rbrace :: rbrace :: r)) =
          (findMarker ((d :: ds) ++ rbrace :: rbrace :: r)).map (· + 1) := by
        simp only [List.cons_append, findMarker]
        simp [hc]
      rw [List.cons_append, hstep, ih hcs]
      simp

theorem resolve_marker_reduce (cwd home : List Char) (g : Globals)
    (t r : List Char) (h : rbrace ∉ t) :
    resolve_conf_path cwd home g ([lbrace, lbrace] ++ t ++ [rbrace, rbrace] ++ r) =
      resolveToken cwd g (pyLower (pyStrip t)) r := by
  have hP : [lbrace, lbrace] ++ t ++ [rbrace, rbrace] ++ r =
      lbrace :: lbrace :: (t ++ rbrace :: rbrace :: r) := by simp
  have hnb2 : rbrace ∉ lbrace :: lbrace :: t := by
    intro hm
    rcases List.mem_cons.mp hm with h1 | hm1
    · exact absurd h1.symm (by decide)
    · rcases List.mem_cons.mp hm1 with h2 | hm2
      · exact absurd h2.symm (by decide)
      · exact h hm2
  have hfind : findMarker (lbrace :: lbrace :: (t ++ rbrace :: rbrace :: r)) =
      some (t.length + 2) := by
    have hlen : (lbrace :: lbrace :: t).length = t.length + 2 := by
      simp only [List.length_cons]
    have := findMarker_prefix (lbrace :: lbrace :: t) r hnb2
    rw [hlen] at this
    simpa using this
  have hsub : ((lbrace :: lbrace :: (t ++ rbrace :: rbrace :: r)).drop 2).take
      (t.length + 2 - 2) = t := by
    have hd2 : (lbrace :: lbrace :: (t ++ rbrace :: rbrace :: r)).drop 2 =
        t ++ rbrace :: rbrace :: r := rfl
    rw [hd2, Nat.add_sub_cancel]
    exact List.take_left t _
  have hdrop4 : (t ++ rbrace :: rbrace :: r).drop (t.length + 2) = r := by
    have h1 : t ++ rbrace :: rbrace :: r = (t ++ [rbrace, rbrace]) ++ r := by simp
    have h2 : (t ++ [rbrace, rbrace]).length = t.length + 2 := by simp
    rw [h1, ← h2, List.drop_left]
  have hdropP : (lbrace :: lbrace :: (t ++ rbrace :: rbrace :: r)).drop
      (t.length + 2 + 2) = r := hdrop4
  rw [hP, resolve_conf_path]
  rw [show (lbrace :: lbrace :: (t ++ rbrace :: rbrace :: r)).take 1 = [lbrace]
    from rfl]
  rw [if_neg (show ¬([lbrace] = ['~']) by decide)]
  rw [show (lbrace :: lbrace :: (t ++ rbrace :: rbrace :: r)).take 2 =
    [lbrace, lbrace] from rfl]
  rw [if_pos (show [lbrace, lbrace] = [lbrace, lbrace] from rfl), hfind]
  show resolveToken cwd g
      (pyLower (pyStrip (((lbrace :: lbrace :: (t ++ rbrace :: rbrace :: r)).drop 2).take
        (t.length + 2 - 2))))
      ((lbrace :: lbrace :: (t ++ rbrace :: rbrace :: r)).drop (t.length + 2 + 2)) =
    resolveToken cwd g (pyLower (pyStrip t)) r
  rw [hsub, hdropP]

theorem resolveToken_none (cwd : List Char) (g : Globals) (substr tl : List Char)
    (h : stacheLookup g substr = none) :
    resolveToken cwd g substr tl = .error .keyError := by
  unfold resolveToken
  rw [h]

theorem resolveToken_some_nil (cwd : List Char) (g : Globals) (substr repl : List Char)
    (h : stacheLookup g substr = some repl) :
    resolveToken cwd g substr [] = .error .indexError := by
  unfold resolveToken
  rw [h]

theorem resolveToken_some_cons (cwd : List Char) (g : Globals)
    (substr repl : List Char) (t0 : Char) (trest : List Char)
    (h : stacheLookup g substr = some repl) :
    resolveToken cwd g substr (t0 :: trest) =
      if t0 = sepChar then .ok (abspath cwd (repl ++ t0 :: trest))
      else .ok (abspath cwd (pyJoin repl (t0 :: trest))) := by
  unfold resolveToken
  rw [h]

theorem pyJoin_one_sep (a : List Char) (t0 : Char) (b : List Char)
    (ha : a ≠ []) (hl : a.getLast? ≠ some sepChar) (ht0 : t0 ≠ sepChar) :
    pyJoin a (t0 :: b) = a ++ sepChar :: t0 :: b := by
  rw [pyJoin, if_neg, if_neg]
  · rintro (hc | hc)
    · exact ha hc
    · exact hl hc
  · intro hcon
    have : t0 = sepChar := by simpa using hcon
    exact ht0 this

-- ===================================================================
-- Concrete inputs used by the specification examples
-- ===================================================================

/-- The tail of the resolver example `/sub/file.log`. -/
def subFileTail : List Char := "/sub/file.log".toList

/-- The unrecognized token of the resolver failure example. -/
def keyBogus : List Char := "bogus".toList

/-- The tail of the resolver failure example. -/
def slashX : List Char := "/x".toList

/-- A concrete working directory for witnesses. -/
def cwdW : List Char := "/cw".toList

/-- A concrete home directory for witnesses. -/
def homeW : List Char := "/home/u".toList

/-- A concrete set of module globals for witnesses. -/
def gW : Globals :=
  { BIN_DIR := "/r/bin".toList
    CUR_DIR := "/cw".toList
    ETC_DIR := "/r/etc".toList
    LIB_DIR := "/r/lib".toList
    LOG_DIR := "/var/log".toList
    REL_DIR := "/r".toList
    SCH_DIR := "/r/schema".toList
    PROG_NAME := "prog".toList }

-- ===================================================================
-- C4, C5, C10: the configuration path resolver
-- ===================================================================

/-- C4: on a marker-prefixed input whose token (trimmed of surrounding
whitespace and lower-cased before lookup) is in the seven-entry table
and whose tail is nonempty, the resolver concatenates the base directly
with a separator-prefixed tail and otherwise joins base and tail with
exactly one separator inserted, canonicalizing the result to an
absolute path; in particular resolving the log token followed by
`/sub/file.log` yields the current log base directory joined with
`sub/file.log`. -/
theorem resolve_conf_path_token_join
    (cwd home : List Char) (g : Globals) (t : List Char) (r0 : Char)
    (rest repl : List Char)
    (hnb : rbrace ∉ t)
    (hlk : stacheLookup g (pyLower (pyStrip t)) = some repl)
    (hrepl : repl ≠ [])
    (hsl : repl.getLast? ≠ some sepChar)
    (hclean : cleanAbs g.LOG_DIR = true) :
    resolve_conf_path cwd home g
        ([lbrace, lbrace] ++ t ++ [rbrace, rbrace] ++ (r0 :: rest)) =
      .ok (abspath cwd (if r0 = sepChar then repl ++ r0 :: rest
        else repl ++ sepChar :: r0 :: rest))
    ∧ resolve_conf_path cwd home g
        ([lbrace, lbrace] ++ keyLog ++ [rbrace, rbrace] ++ subFileTail) =
      .ok (g.LOG_DIR ++ subFileTail) := by
  constructor
  · rw [resolve_marker_reduce cwd home g t (r0 :: rest) hnb,
      resolveToken_some_cons cwd g _ repl r0 rest hlk]
    by_cases hr0 : r0 = sepChar
    · rw [if_pos hr0, if_pos hr0]
    · rw [if_neg hr0, if_neg hr0, pyJoin_one_sep repl r0 rest hrepl hsl hr0]
  · have hnbl : rbrace ∉ keyLog := by decide
    have hlkl : stacheLookup g (pyLower (pyStrip keyLog)) = some g.LOG_DIR := rfl
    have hsf : subFileTail = sepChar :: "sub/file.log".toList := rfl
    rw [hsf, resolve_marker_reduce cwd home g keyLog _ hnbl,
      resolveToken_some_cons cwd g _ g.LOG_DIR sepChar _ hlkl,
      if_pos rfl]
    have hca : cleanAbs (g.LOG_DIR ++ sepChar :: "sub/file.log".toList) = true :=
      cleanAbs_append g.LOG_DIR ("sub/file.log".toList) hclean (by decide)
    rw [abspath_clean cwd _ hca]

/-- Witness for C4 at a concrete environment: the log directory is
`/var/log` and the input is the log token followed by `/sub/file.log`. -/
theorem resolve_conf_path_token_join_witness :
    rbrace ∉ keyLog
    ∧ stacheLookup gW (pyLower (pyStrip keyLog)) = some gW.LOG_DIR
    ∧ gW.LOG_DIR ≠ []
    ∧ gW.LOG_DIR.getLast? ≠ some sepChar
    ∧ cleanAbs gW.LOG_DIR = true
    ∧ resolve_conf_path cwdW homeW gW
        ([lbrace, lbrace] ++ keyLog ++ [rbrace, rbrace] ++ subFileTail) =
      .ok (gW.LOG_DIR ++ subFileTail) :=
  ⟨by decide, rfl, by decide, by decide, by decide,
    (resolve_conf_path_token_join cwdW homeW gW keyLog sepChar
      ("sub/file.log".toList) gW.LOG_DIR (by decide) rfl (by decide) (by decide)
      (by decide)).2⟩

/-- C5: a marker-prefixed input whose trimmed, lower-cased token is not
one of the seven keys makes the resolver fail with the raw dictionary
lookup error, not a parameter error; in particular the bogus token
followed by `/x` raises the lookup failure. -/
theorem resolve_conf_path_unknown_token_keyerror
    (cwd home : List Char) (g : Globals) (t r : List Char)
    (hnb : rbrace ∉ t)
    (hlk : stacheLookup g (pyLower (pyStrip t)) = none) :
    resolve_conf_path cwd home g ([lbrace, lbrace] ++ t ++ [rbrace, rbrace] ++ r) =
      .error .keyError
    ∧ resolve_conf_path cwd home g
        ([lbrace, lbrace] ++ keyBogus ++ [rbrace, rbrace] ++ slashX) =
      .error .keyError := by
  constructor
  · rw [resolve_marker_reduce cwd home g t r hnb, resolveToken_none cwd g _ r hlk]
  · have hnbb : rbrace ∉ keyBogus := by decide
    have hlkb : stacheLookup g (pyLower (pyStrip keyBogus)) = none := rfl
    rw [resolve_marker_reduce cwd home g keyBogus slashX hnbb,
      resolveToken_none cwd g _ slashX hlkb]

/-- Witness for C5 at a concrete environment and the bogus token. -/
theorem resolve_conf_path_unknown_token_keyerror_witness :
    rbrace ∉ keyBogus
    ∧ stacheLookup gW (pyLower (pyStrip keyBogus)) = none
    ∧ resolve_conf_path cwdW homeW gW
        ([lbrace, lbrace] ++ keyBogus ++ [rbrace, rbrace] ++ slashX) =
      .error .keyError :=
  ⟨by decide, rfl,
    (resolve_conf_path_unknown_token_keyerror cwdW homeW gW keyBogus slashX
      (by decide) rfl).2⟩

/-- C10: a recognized token with nothing after the closing marker does
not resolve to the base directory: the subscript of the empty tail
raises the out-of-range indexing error; in particular the log token
alone fails that way. -/
theorem resolve_conf_path_empty_tail_indexerror
    (cwd home : List Char) (g : Globals) (t repl : List Char)
    (hnb : rbrace ∉ t)
    (hlk : stacheLookup g (pyLower (pyStrip t)) = some repl) :
    resolve_conf_path cwd home g ([lbrace, lbrace] ++ t ++ [rbrace, rbrace]) =
      .error .indexError
    ∧ resolve_conf_path cwd home g ([lbrace, lbrace] ++ keyLog ++ [rbrace, rbrace]) =
      .error .indexError := by
  have hnil : ∀ u : List Char, [lbrace, lbrace] ++ u ++ [rbrace, rbrace] =
      [lbrace, lbrace] ++ u ++ [rbrace, rbrace] ++ ([] : List Char) := by
    intro u
    simp
  constructor
  · rw [hnil t, resolve_marker_reduce cwd home g t [] hnb,
      resolveToken_some_nil cwd g _ repl hlk]
  · have hnbl : rbrace ∉ keyLog := by decide
    have hlkl : stacheLookup g (pyLower (pyStrip keyLog)) = some g.LOG_DIR := rfl
    rw [hnil keyLog, resolve_marker_reduce cwd home g keyLog [] hnbl,
      resolveToken_some_nil cwd g _ g.LOG_DIR hlkl]

/-- Witness for C10 at a concrete environment and the log token. -/
theorem resolve_conf_path_empty_tail_indexerror_witness :
    rbrace ∉ keyLog
    ∧ stacheLookup gW (pyLower (pyStrip keyLog)) = some gW.LOG_DIR
    ∧ resolve_conf_path cwdW homeW gW
        ([lbrace, lbrace] ++ keyLog ++ [rbrace, rbrace]) =
      .error .indexError :=
  ⟨by decide, rfl,
    (resolve_conf_path_empty_tail_indexerror cwdW homeW gW keyLog gW.LOG_DIR
      (by decide) rfl).2⟩

-- ===================================================================
-- Parameter errors and their debug-dependent presentation
-- ===================================================================

/-- A path surrounded by single quotes, as in the f-string messages. -/
def quoted (p : List Char) : List Char := squote :: (p ++ [squote])

/-- Message of the not-a-directory failure. -/
def msgNotADirectory (p : List Char) : List Char :=
  "not a directory: ".toList ++ quoted p

/-- Message of the directory permission failure. -/
def msgInsufficientDir (p : List Char) : List Char :=
  "insufficient directory permissions: ".toList ++ quoted p

/-- Message of the exists-but-not-a-file failure. -/
def msgExistsNotFile (p : List Char) : List Char :=
  "exists but not a file: ".toList ++ quoted p

/-- Message of the file permission failure. -/
def msgInsufficientFile (p : List Char) : List Char :=
  "insufficient file permissions: ".toList ++ quoted p

/-- Message of the not-a-readable-file failure. -/
def msgNotReadableFile (p : List Char) : List Char :=
  "not a readable file: ".toList ++ quoted p

/-- `raise_param_error` from `scr.py`: the exception it raises, as a
value.  With the debug flag the distinguishable parameter error classes
are used; without it the builtin kinds. -/
def raise_param_error (debug : Bool) (msg : List Char) (bad_type : Bool) : PyErr :=
  if debug then
    (if bad_type then .paramTypeError msg else .paramValueError msg)
  else
    (if bad_type then .typeError msg else .valueError msg)

/-- Whether an exception is of the value-invalid kind, in either
presentation. -/
def isValueKindExc : PyErr → Bool
  | .valueError _ => true
  | .paramValueError _ => true
  | _ => false

/-- Whether an exception is of the type-mismatch kind, in either
presentation. -/
def isTypeKindExc : PyErr → Bool
  | .typeError _ => true
  | .paramTypeError _ => true
  | _ => false

/-- Whether an exception uses the debug-mode parameter error classes. -/
def isDebugKindExc : PyErr → Bool
  | .paramTypeError _ => true
  | .paramValueError _ => true
  | _ => false

/-- The message text carried by an exception. -/
def excText : PyErr → List Char
  | .typeError m => m
  | .valueError m => m
  | .paramTypeError m => m
  | .paramValueError m => m
  | .keyError => []
  | .indexError => []
  | .fileExistsError => []
  | .fileNotFoundError => []

/-- A validator result with the debug-dependent presentation erased:
only the kind (type-mismatch or not) and the message remain. -/
def eraseDebug (r : Except PyErr (List Char)) : Except (Bool × List Char) (List Char) :=
  match r with
  | .ok v => .ok v
  | .error e => .error (isTypeKindExc e, excText e)

theorem eraseDebug_rpe (d : Bool) (m : List Char) (b : Bool) :
    eraseDebug (.error (raise_param_error d m b)) = .error (b, m) := by
  cases d <;> cases b <;> rfl

theorem rpe_kind_text (d1 d2 : Bool) (m : List Char) (b : Bool) :
    isTypeKindExc (raise_param_error d1 m b) = isTypeKindExc (raise_param_error d2 m b)
    ∧ excText (raise_param_error d1 m b) = excText (raise_param_error d2 m b) := by
  cases d1 <;> cases d2 <;> cases b <;> exact ⟨rfl, rfl⟩

-- ===================================================================
-- The filesystem as an explicit record of queries
-- ===================================================================

/-- The filesystem queries `scr.py` performs (`os.path.isdir`,
`os.path.isfile`, `os.path.exists`, and `os.access` split into its
three permission bits). -/
structure Fs where
  isdir : List Char → Bool
  isfile : List Char → Bool
  pexists : List Char → Bool
  readable : List Char → Bool
  writable : List Char → Bool
  executable : List Char → Bool

-- ===================================================================
-- Argument validators
-- ===================================================================

/-- `ReadableAbsDir` from `scr.py`: the path must be an existing
directory with write access. -/
def ReadableAbsDir (debug : Bool) (fs : Fs) (path : List Char) :
    Except PyErr (List Char) :=
  if ¬ fs.isdir path then
    .error (raise_param_error debug (msgNotADirectory path) false)
  else if ¬ fs.writable path then
    .error (raise_param_error debug (msgInsufficientDir path) false)
  else .ok path

/-- `ReadableAbsFile` from `scr.py`: the path must be an existing,
readable regular file. -/
def ReadableAbsFile (debug : Bool) (fs : Fs) (path : List Char) :
    Except PyErr (List Char) :=
  if ¬ (fs.isfile path && fs.readable path) then
    .error (raise_param_error debug (msgNotReadableFile path) false)
  else .ok path

/-- `ReadableDir` from `scr.py`: user-expand and absolutize, then apply
`ReadableAbsDir`. -/
def ReadableDir (debug : Bool) (fs : Fs) (cwd home path : List Char) :
    Except PyErr (List Char) :=
  ReadableAbsDir debug fs (abspath cwd (expanduser home path))

/-- `ReadableFile` from `scr.py`: user-expand and absolutize, then
apply `ReadableAbsFile`. -/
def ReadableFile (debug : Bool) (fs : Fs) (cwd home path : List Char) :
    Except PyErr (List Char) :=
  ReadableAbsFile debug fs (abspath cwd (expanduser home path))

/-- `PossibleFile` from `scr.py`: an existing path must be a file that
is readable or writeable; a nonexistent path must have an existing,
writeable parent directory. -/
def PossibleFile (debug : Bool) (fs : Fs) (cwd home path : List Char) :
    Except PyErr (List Char) :=
  let fp := abspath cwd (expanduser home path)
  if fs.pexists fp then
    if ¬ fs.isfile fp then
      .error (raise_param_error debug (msgExistsNotFile fp) false)
    else if ¬ (fs.readable fp || fs.writable fp) then
      .error (raise_param_error debug (msgInsufficientFile fp) false)
    else .ok fp
  else
    if ¬ fs.isdir (dirname fp) then
      .error (raise_param_error debug (msgNotADirectory (dirname fp)) false)
    else if ¬ fs.writable (dirname fp) then
      .error (raise_param_error debug (msgInsufficientDir (dirname fp)) false)
    else .ok fp

-- ===================================================================
-- C6: the `ReadableAbsDir` contract
-- ===================================================================

/-- C6: an existing writeable directory is returned unchanged; a path
that is not a directory (such as an existing plain file) fails with a
value-kind parameter error; and the validator is insensitive to read
permission, so write access is what is required despite the name. -/
theorem readable_abs_dir_contract
    (debug : Bool) (fs : Fs) (pd pf : List Char)
    (hd : fs.isdir pd = true) (hw : fs.writable pd = true)
    (hf : fs.isdir pf = false) :
    ReadableAbsDir debug fs pd = .ok pd
    ∧ ReadableAbsDir debug fs pf =
        .error (raise_param_error debug (msgNotADirectory pf) false)
    ∧ isValueKindExc (raise_param_error debug (msgNotADirectory pf) false) = true
    ∧ ∀ (r : List Char → Bool) (p : List Char),
        ReadableAbsDir debug { fs with readable := r } p = ReadableAbsDir debug fs p := by
  refine ⟨?_, ?_, ?_, ?_⟩
  · rw [ReadableAbsDir, if_neg (by simp [hd]), if_neg (by simp [hw])]
  · rw [ReadableAbsDir, if_pos (by simp [hf])]
  · cases debug <;> rfl
  · intro r p
    rfl

/-- A concrete filesystem for witnesses: one directory, one plain file
inside it, write permission everywhere, read permission nowhere. -/
def fsDirFile : Fs :=
  { isdir := fun p => decide (p = "/d".toList)
    isfile := fun p => decide (p = "/d/f".toList)
    pexists := fun p => decide (p = "/d".toList) || decide (p = "/d/f".toList)
    readable := fun _ => false
    writable := fun _ => true
    executable := fun _ => true }

/-- The witness directory path. -/
def dirD : List Char := "/d".toList

/-- The witness plain-file path. -/
def fileF : List Char := "/d/f".toList

/-- Witness for C6 on a concrete filesystem: the directory passes even
though nothing is readable, and the plain file fails with a value
error. -/
theorem readable_abs_dir_contract_witness :
    fsDirFile.isdir dirD = true
    ∧ fsDirFile.writable dirD = true
    ∧ fsDirFile.isdir fileF = false
    ∧ fsDirFile.isfile fileF = true
    ∧ fsDirFile.readable dirD = false
    ∧ ReadableAbsDir true fsDirFile dirD = .ok dirD
    ∧ ReadableAbsDir true fsDirFile fileF =
        .error (raise_param_error true (msgNotADirectory fileF) false)
    ∧ isValueKindExc (raise_param_error true (msgNotADirectory fileF) false) = true :=
  ⟨by decide, by decide, by decide, by decide, by decide,
    (readable_abs_dir_contract true fsDirFile dirD fileF (by decide) (by decide)
      (by decide)).1,
    (readable_abs_dir_contract true fsDirFile dirD fileF (by decide) (by decide)
      (by decide)).2.1,
    (readable_abs_dir_contract true fsDirFile dirD fileF (by decide) (by decide)
      (by decide)).2.2.1⟩

-- ===================================================================
-- C9: the debug flag changes only the error kind
-- ===================================================================

/-- C9: `raise_param_error` carries the same message and the same
type-versus-value distinction in both debug modes, the debug flag
selecting only between the distinguishable parameter classes and the
builtin kinds; consequently every validator fails or succeeds
identically in both modes with identical message text. -/
theorem param_error_debug_flag_only_kind :
    (∀ (d b : Bool) (m : List Char),
      excText (raise_param_error d m b) = m
      ∧ isTypeKindExc (raise_param_error d m b) = b
      ∧ isDebugKindExc (raise_param_error d m b) = d)
    ∧ (∀ (d1 d2 : Bool) (fs : Fs) (p : List Char),
      eraseDebug (ReadableAbsDir d1 fs p) = eraseDebug (ReadableAbsDir d2 fs p))
    ∧ (∀ (d1 d2 : Bool) (fs : Fs) (p : List Char),
      eraseDebug (ReadableAbsFile d1 fs p) = eraseDebug (ReadableAbsFile d2 fs p))
    ∧ (∀ (d1 d2 : Bool) (fs : Fs) (cwd home p : List Char),
      eraseDebug (ReadableDir d1 fs cwd home p) =
        eraseDebug (ReadableDir d2 fs cwd home p))
    ∧ (∀ (d1 d2 : Bool) (fs : Fs) (cwd home p : List Char),
      eraseDebug (ReadableFile d1 fs cwd home p) =
        eraseDebug (ReadableFile d2 fs cwd home p))
    ∧ (∀ (d1 d2 : Bool) (fs : Fs) (cwd home p : List Char),
      eraseDebug (PossibleFile d1 fs cwd home p) =
        eraseDebug (PossibleFile d2 fs cwd home p)) := by
  have hrad : ∀ (d1 d2 : Bool) (fs : Fs) (p : List Char),
      eraseDebug (ReadableAbsDir d1 fs p) = eraseDebug (ReadableAbsDir d2 fs p) := by
    intro d1 d2 fs p
    rw [ReadableAbsDir, ReadableAbsDir]
    by_cases h1 : fs.isdir p <;> by_cases h2 : fs.writable p <;>
      simp [h1, h2, eraseDebug_rpe, eraseDebug] <;>
      exact rpe_kind_text d1 d2 _ false
  have hraf : ∀ (d1 d2 : Bool) (fs : Fs) (p : List Char),
      eraseDebug (ReadableAbsFile d1 fs p) = eraseDebug (ReadableAbsFile d2 fs p) := by
    intro d1 d2 fs p
    rw [ReadableAbsFile, ReadableAbsFile]
    by_cases h1 : fs.isfile p && fs.readable p
    · simp [h1, eraseDebug_rpe, eraseDebug]
    · simp [h1, eraseDebug_rpe, eraseDebug]
      exact rpe_kind_text d1 d2 _ false
  refine ⟨?_, hrad, hraf, ?_, ?_, ?_⟩
  · intro d b m
    cases d <;> cases b <;> exact ⟨rfl, rfl, rfl⟩
  · intro d1 d2 fs cwd home p
    exact hrad d1 d2 fs _
  · intro d1 d2 fs cwd home p
    exact hraf d1 d2 fs _
  · intro d1 d2 fs cwd home p
    rw [PossibleFile, PossibleFile]
    by_cases h1 : fs.pexists (abspath cwd (expanduser home p)) <;>
      by_cases h2 : fs.isfile (abspath cwd (expanduser home p)) <;>
      by_cases h3 : fs.readable (abspath cwd (expanduser home p)) ||
        fs.writable (abspath cwd (expanduser home p)) <;>
      by_cases h4 : fs.isdir (dirname (abspath cwd (expanduser home p))) <;>
      by_cases h5 : fs.writable (dirname (abspath cwd (expanduser home p))) <;>
      simp [h1, h2, h3, h4, h5, eraseDebug_rpe, eraseDebug] <;>
      exact rpe_kind_text d1 d2 _ false

-- ===================================================================
-- Logging initialization (`init_log` and its level table)
-- ===================================================================

/-- The level name ALL. -/
def lvlAll : List Char := "ALL".toList

/-- The level name DEBUG. -/
def lvlDebug : List Char := "DEBUG".toList

/-- The level name INFO. -/
def lvlInfo : List Char := "INFO".toList

/-- The level name WARNING. -/
def lvlWarning : List Char := "WARNING".toList

/-- The level name ERROR. -/
def lvlError : List Char := "ERROR".toList

/-- The level name CRITICAL. -/
def lvlCritical : List Char := "CRITICAL".toList

/-- The sentinel level name NONE. -/
def lvlNone : List Char := "NONE".toList

/-- The lower-case spelling of the sentinel level name. -/
def lvlNoneLower : List Char := "none".toList

/-- The numeric severity of CRITICAL in CPython `logging`. -/
def CRITICAL : Int := 50

/-- The `LOG_LEVELS` table of `scr.py`, with the numeric values of the
CPython `logging` severities and the negative sentinel for NONE. -/
def LOG_LEVELS : List (List Char × Int) :=
  [(lvlAll, 0), (lvlDebug, 10), (lvlInfo, 20), (lvlWarning, 30),
   (lvlError, 40), (lvlCritical, 50), (lvlNone, -1)]

/-- Dictionary lookup in the level table; `none` is the `KeyError`
case. -/
def assocLookup : List (List Char × Int) → List Char → Option Int
  | [], _ => none
  | (k, v) :: rest, key => if key = k then some v else assocLookup rest key

/-- The argument `scr.py` passes to `logging.disable`: the source
expression applies the caret of Python, which is bitwise exclusive or
rather than exponentiation, so the value is 28, not 2147483647. -/
def disableThreshold : Int := ((Nat.xor 2 31 : Nat) : Int) - 1

/-- CPython `logging` record filtering after `logging.disable n`: a
record of severity `lvl` is dropped exactly when `lvl ≤ n`
(`Logger.isEnabledFor` refuses when the manager disable value is at
least the record level). -/
def record_suppressed (disable lvl : Int) : Bool := lvl ≤ disable

/-- The observable effect of `init_log` on the logging backend: either
`logging.disable` with a threshold, or `logging.basicConfig` appending
to a file at a severity threshold with the fixed timestamped line
format. -/
inductive LogAction where
  | disabled : Int → LogAction
  | configured : List Char → Int → LogAction
deriving DecidableEq

/-- The filesystem after `os.mkdir` succeeds: the path is now an
existing directory; permission query results are unchanged. -/
def Fs.mkDirAt (fs : Fs) (p : List Char) : Fs :=
  { fs with
    isdir := fun q => if q = p then true else fs.isdir q
    pexists := fun q => if q = p then true else fs.pexists q }

/-- `os.mkdir`: single-level creation; an existing path is
`FileExistsError`, a missing parent directory is `FileNotFoundError`,
both propagating unmodified. -/
def os_mkdir (fs : Fs) (p : List Char) : Except PyErr Fs :=
  if fs.pexists p then .error .fileExistsError
  else if ¬ fs.isdir (dirname p) then .error .fileNotFoundError
  else .ok (fs.mkDirAt p)

/-- The `.log` suffix of the composed log file name. -/
def dotLog : List Char := ".log".toList

/-- The effective log name: Python falsiness makes `None` and the empty
string both fall back to the program name. -/
def lognameEff (logname : Option (List Char)) (prog : List Char) : List Char :=
  match logname with
  | some n => if n = [] then prog else n
  | none => prog

/-- The tail of `init_log` after the directory exists: the combined
access check, then `logging.basicConfig` on the composed file name. -/
def init_log_rest (debug : Bool) (fs : Fs) (g : Globals) (loglevel : Int)
    (logdir : List Char) (logname : Option (List Char)) :
    Fs × Globals × Except PyErr LogAction :=
  if ¬ (fs.readable logdir && fs.writable logdir && fs.executable logdir) then
    (fs, g, .error (raise_param_error debug (msgInsufficientDir logdir) false))
  else
    (fs, g, .ok (.configured
      (pyJoin logdir (lognameEff logname g.PROG_NAME ++ dotLog)) loglevel))

/-- The directory phase of `init_log`: an existing non-directory is a
parameter error, a missing directory is created with `os.mkdir`. -/
def init_log_dir (debug : Bool) (fs : Fs) (g : Globals) (loglevel : Int)
    (logdir : List Char) (logname : Option (List Char)) :
    Fs × Globals × Except PyErr LogAction :=
  if ¬ fs.isdir logdir then
    if fs.pexists logdir then
      (fs, g, .error (raise_param_error debug (msgNotADirectory logdir) false))
    else
      match os_mkdir fs logdir with
      | .error e => (fs, g, .error e)
      | .ok fs2 => init_log_rest debug fs2 g loglevel logdir logname
  else init_log_rest debug fs g loglevel logdir logname

/-- The logdir argument handling of `init_log`: a truthy argument is
resolved and becomes the new global LOG_DIR (the assignment happens
before any directory check), otherwise the current global is used. -/
def effLogdir (cwd home : List Char) (g : Globals) :
    Option (List Char) → Except PyErr (Globals × List Char)
  | some ld =>
    if ld = [] then .ok (g, g.LOG_DIR)
    else
      match resolve_conf_path cwd home g ld with
      | .error e => .error e
      | .ok rd => .ok ({ g with LOG_DIR := rd }, rd)
  | none => .ok (g, g.LOG_DIR)

/-- `init_log` after the level lookup succeeded. -/
def init_log_with_level (debug : Bool) (fs : Fs) (g : Globals)
    (cwd home : List Char) (loglevel : Int)
    (logdir logname : Option (List Char)) :
    Fs × Globals × Except PyErr LogAction :=
  if loglevel < 0 then (fs, g, .ok (.disabled disableThreshold))
  else
    match effLogdir cwd home g logdir with
    | .error e => (fs, g, .error e)
    | .ok (g2, ldir) => init_log_dir debug fs g2 loglevel ldir logname

/-- `init_log` from `scr.py`: look the level name up case-insensitively
(a `KeyError` propagates raw), disable logging for the negative
sentinel, otherwise resolve and install the log directory, ensure it
exists and is fully accessible, and configure the file-backed logger. -/
def init_log (debug : Bool) (fs : Fs) (g : Globals) (cwd home : List Char)
    (level : List Char) (logdir logname : Option (List Char)) :
    Fs × Globals × Except PyErr LogAction :=
  match assocLookup LOG_LEVELS (pyUpper level) with
  | none => (fs, g, .error .keyError)
  | some loglevel =>
    init_log_with_level debug fs g cwd home loglevel logdir logname

theorem init_log_level_eq (debug : Bool) (fs : Fs) (g : Globals)
    (cwd home : List Char) (level : List Char) (logdir logname : Option (List Char))
    (L : Int) (h : assocLookup LOG_LEVELS (pyUpper level) = some L) :
    init_log debug fs g cwd home level logdir logname =
      init_log_with_level debug fs g cwd home L logdir logname := by
  unfold init_log
  rw [h]

theorem effLogdir_resolved (cwd home : List Char) (g : Globals) (ld rd : List Char)
    (hld : ld ≠ []) (hres : resolve_conf_path cwd home g ld = .ok rd) :
    effLogdir cwd home g (some ld) = .ok ({ g with LOG_DIR := rd }, rd) := by
  simp only [effLogdir]
  rw [if_neg hld, hres]

theorem init_log_wl_ok (debug : Bool) (fs : Fs) (g : Globals)
    (cwd home : List Char) (L : Int) (logdir logname : Option (List Char))
    (g2 : Globals) (ldir : List Char)
    (hL : 0 ≤ L) (heff : effLogdir cwd home g logdir = .ok (g2, ldir)) :
    init_log_with_level debug fs g cwd home L logdir logname =
      init_log_dir debug fs g2 L ldir logname := by
  unfold init_log_with_level
  rw [if_neg (not_lt.mpr hL), heff]

theorem init_log_dir_creates (debug : Bool) (fs : Fs) (g : Globals) (L : Int)
    (ldir : List Char) (logname : Option (List Char))
    (hnd : fs.isdir ldir = false) (hnex : fs.pexists ldir = false)
    (hpar : fs.isdir (dirname ldir) = true) :
    init_log_dir debug fs g L ldir logname =
      init_log_rest debug (fs.mkDirAt ldir) g L ldir logname := by
  unfold init_log_dir
  rw [if_pos (by simp [hnd]), if_neg (by simp [hnex])]
  have hmk : os_mkdir fs ldir = .ok (fs.mkDirAt ldir) := by
    unfold os_mkdir
    rw [if_neg (by simp [hnex]), if_neg (by simp [hpar])]
  rw [hmk]

theorem init_log_dir_exists (debug : Bool) (fs : Fs) (g : Globals) (L : Int)
    (ldir : List Char) (logname : Option (List Char))
    (hd : fs.isdir ldir = true) :
    init_log_dir debug fs g L ldir logname =
      init_log_rest debug fs g L ldir logname := by
  unfold init_log_dir
  rw [if_neg (by simp [hd])]

theorem init_log_dir_notdir (debug : Bool) (fs : Fs) (g : Globals) (L : Int)
    (ldir : List Char) (logname : Option (List Char))
    (hnd : fs.isdir ldir = false) (hex : fs.pexists ldir = true) :
    init_log_dir debug fs g L ldir logname =
      (fs, g, .error (raise_param_error debug (msgNotADirectory ldir) false)) := by
  unfold init_log_dir
  rw [if_pos (by simp [hnd]), if_pos hex]

theorem init_log_rest_ok (debug : Bool) (fs : Fs) (g : Globals) (L : Int)
    (ldir : List Char) (logname : Option (List Char))
    (hperm : (fs.readable ldir && fs.writable ldir && fs.executable ldir) = true) :
    init_log_rest debug fs g L ldir logname =
      (fs, g, .ok (.configured
        (pyJoin ldir (lognameEff logname g.PROG_NAME ++ dotLog)) L)) := by
  unfold init_log_rest
  rw [if_neg (by simp [hperm])]

-- ===================================================================
-- C1: the NONE sentinel and the disable threshold
-- ===================================================================

/-- C1: when the level maps case-insensitively to the NONE sentinel,
`init_log` returns at once leaving filesystem and globals untouched as
claimed, but the installed disable threshold is 28 because the Python
caret in `(2^31)-1` is exclusive or, not exponentiation, so a
subsequent CRITICAL record (severity 50) is not suppressed — the
threshold is far from maximal. -/
theorem init_log_none_disable_threshold_bug
    (debug : Bool) (fs : Fs) (g : Globals) (cwd home : List Char)
    (logdir logname : Option (List Char)) :
    init_log debug fs g cwd home lvlNone logdir logname =
      (fs, g, .ok (.disabled disableThreshold))
    ∧ init_log debug fs g cwd home lvlNoneLower logdir logname =
      (fs, g, .ok (.disabled disableThreshold))
    ∧ disableThreshold = 28
    ∧ record_suppressed disableThreshold CRITICAL = false := by
  refine ⟨?_, ?_, by decide, by decide⟩
  · rw [init_log_level_eq debug fs g cwd home lvlNone logdir logname (-1) rfl]
    unfold init_log_with_level
    rw [if_pos (by decide)]
  · rw [init_log_level_eq debug fs g cwd home lvlNoneLower logdir logname (-1) rfl]
    unfold init_log_with_level
    rw [if_pos (by decide)]

-- ===================================================================
-- C8: the logdir override and its frame
-- ===================================================================

/-- C8: with a non-NONE level and a truthy logdir argument, the
resolved directory becomes the new global LOG_DIR (so a later call with
logdir omitted reuses it), the only global that changes; a missing
directory is created by single-level `os.mkdir`, and a path that exists
but is not a directory fails with the parameter value error while still
having installed the new LOG_DIR. -/
theorem init_log_logdir_replaces_global
    (debug : Bool) (fs : Fs) (g : Globals) (cwd home : List Char)
    (lvl : List Char) (L : Int) (d rd d2 rd2 : List Char)
    (hlvl : assocLookup LOG_LEVELS (pyUpper lvl) = some L)
    (hL : 0 ≤ L)
    (hd : d ≠ [])
    (hres : resolve_conf_path cwd home g d = .ok rd)
    (hnex : fs.pexists rd = false)
    (hnd : fs.isdir rd = false)
    (hpar : fs.isdir (dirname rd) = true)
    (hr : fs.readable rd = true) (hw : fs.writable rd = true)
    (hx : fs.executable rd = true)
    (hd2 : d2 ≠ [])
    (hres2 : resolve_conf_path cwd home g d2 = .ok rd2)
    (hex2 : fs.pexists rd2 = true)
    (hnd2 : fs.isdir rd2 = false) :
    init_log debug fs g cwd home lvl (some d) none =
      (fs.mkDirAt rd, { g with LOG_DIR := rd },
        .ok (.configured (pyJoin rd (g.PROG_NAME ++ dotLog)) L))
    ∧ init_log debug (fs.mkDirAt rd) { g with LOG_DIR := rd } cwd home lvl
        none none =
      (fs.mkDirAt rd, { g with LOG_DIR := rd },
        .ok (.configured (pyJoin rd (g.PROG_NAME ++ dotLog)) L))
    ∧ init_log debug fs g cwd home lvl (some d2) none =
      (fs, { g with LOG_DIR := rd2 },
        .error (raise_param_error debug (msgNotADirectory rd2) false))
    ∧ ({ g with LOG_DIR := rd } : Globals).BIN_DIR = g.BIN_DIR
    ∧ ({ g with LOG_DIR := rd } : Globals).CUR_DIR = g.CUR_DIR
    ∧ ({ g with LOG_DIR := rd } : Globals).ETC_DIR = g.ETC_DIR
    ∧ ({ g with LOG_DIR := rd } : Globals).LIB_DIR = g.LIB_DIR
    ∧ ({ g with LOG_DIR := rd } : Globals).REL_DIR = g.REL_DIR
    ∧ ({ g with LOG_DIR := rd } : Globals).SCH_DIR = g.SCH_DIR
    ∧ ({ g with LOG_DIR := rd } : Globals).PROG_NAME = g.PROG_NAME
    ∧ ({ g with LOG_DIR := rd } : Globals).LOG_DIR = rd := by
  refine ⟨?_, ?_, ?_, rfl, rfl, rfl, rfl, rfl, rfl, rfl, rfl⟩
  · rw [init_log_level_eq debug fs g cwd home lvl (some d) none L hlvl,
      init_log_wl_ok debug fs g cwd home L (some d) none _ rd hL
        (effLogdir_resolved cwd home g d rd hd hres),
      init_log_dir_creates debug fs _ L rd none hnd hnex hpar,
      init_log_rest_ok debug _ _ L rd none (by simp [Fs.mkDirAt, hr, hw, hx])]
    rfl
  · rw [init_log_level_eq debug (fs.mkDirAt rd) { g with LOG_DIR := rd } cwd home
        lvl none none L hlvl,
      init_log_wl_ok debug (fs.mkDirAt rd) { g with LOG_DIR := rd } cwd home L
        none none { g with LOG_DIR := rd } rd hL rfl,
      init_log_dir_exists debug (fs.mkDirAt rd) { g with LOG_DIR := rd } L rd
        none (by simp [Fs.mkDirAt]),
      init_log_rest_ok debug _ _ L rd none (by simp [Fs.mkDirAt, hr, hw, hx])]
    rfl
  · rw [init_log_level_eq debug fs g cwd home lvl (some d2) none L hlvl,
      init_log_wl_ok debug fs g cwd home L (some d2) none _ rd2 hL
        (effLogdir_resolved cwd home g d2 rd2 hd2 hres2),
      init_log_dir_notdir debug fs _ L rd2 none hnd2 hex2]

/-- The lower-case INFO spelling used by the C8 witness. -/
def lvlInfoLower : List Char := "info".toList

/-- The fresh log directory of the C8 witness. -/
def dW : List Char := "/r/log2".toList

/-- The existing plain file used as a bad logdir in the C8 witness. -/
def d2W : List Char := "/r/f".toList

/-- A concrete filesystem for the C8 witness: the release root and its
bin directory exist, one plain file exists, and `/r/log2` does not
exist yet; every permission is granted. -/
def fsW8 : Fs :=
  { isdir := fun p => decide (p = "/r".toList) || decide (p = "/r/bin".toList)
    isfile := fun p => decide (p = d2W)
    pexists := fun p => decide (p = "/r".toList) || decide (p = "/r/bin".toList)
      || decide (p = d2W)
    readable := fun _ => true
    writable := fun _ => true
    executable := fun _ => true }

/-- Witness for C8 at a concrete environment: a first call with the
fresh `/r/log2` creates it and installs it as LOG_DIR, a second call
with logdir omitted reuses it, and a call naming the plain file fails
with the value error after still installing the new LOG_DIR. -/
theorem init_log_logdir_replaces_global_witness :
    assocLookup LOG_LEVELS (pyUpper lvlInfoLower) = some 20
    ∧ dW ≠ []
    ∧ resolve_conf_path cwdW homeW gW dW = .ok dW
    ∧ fsW8.pexists dW = false
    ∧ fsW8.isdir (dirname dW) = true
    ∧ resolve_conf_path cwdW homeW gW d2W = .ok d2W
    ∧ fsW8.pexists d2W = true
    ∧ fsW8.isdir d2W = false
    ∧ init_log true fsW8 gW cwdW homeW lvlInfoLower (some dW) none =
        (fsW8.mkDirAt dW, { gW with LOG_DIR := dW },
          .ok (.configured (pyJoin dW (gW.PROG_NAME ++ dotLog)) 20))
    ∧ init_log true (fsW8.mkDirAt dW) { gW with LOG_DIR := dW } cwdW homeW
        lvlInfoLower none none =
        (fsW8.mkDirAt dW, { gW with LOG_DIR := dW },
          .ok (.configured (pyJoin dW (gW.PROG_NAME ++ dotLog)) 20))
    ∧ init_log true fsW8 gW cwdW homeW lvlInfoLower (some d2W) none =
        (fsW8, { gW with LOG_DIR := d2W },
          .error (raise_param_error true (msgNotADirectory d2W) false)) := by
  have T := init_log_logdir_replaces_global true fsW8 gW cwdW homeW lvlInfoLower
    20 dW dW d2W d2W rfl (by decide) (by decide) rfl (by decide) (by decide)
    (by decide) rfl rfl rfl (by decide) rfl (by decide) (by decide)
  exact ⟨rfl, by decide, rfl, by decide, by decide, rfl, by decide, by decide,
    T.1, T.2.1, T.2.2.1⟩

-- ===================================================================
-- Bootstrap search-path extension (`_init_module`)
-- ===================================================================

/-- The insertion step of `_init_module` once no existing entry matched:
insert right after the first entry when that entry is filesystem
identical to the binary directory, otherwise append; the subscript of
an empty search path raises `IndexError` (`none`). -/
def init_search_path_insert (fs : Fs) (sf : List Char → List Char → Bool)
    (libdir bindir : List Char) :
    List (List Char) → Option (List (List Char))
  | [] => none
  | d0 :: rest =>
    if fs.pexists d0 && sf d0 bindir then some (d0 :: libdir :: rest)
    else some ((d0 :: rest) ++ [libdir])

/-- The search-path extension of `_init_module`: when the candidate lib
directory is a directory with read and traverse access, scan the
existing path for an entry that exists and is filesystem identical to
the candidate (`os.path.samefile` is the explicit `sf` argument) and
leave the path unchanged on a hit, otherwise insert or append.  The
gating failure and the scan hit both leave the path untouched. -/
def init_search_path (fs : Fs) (sf : List Char → List Char → Bool)
    (sp : List (List Char)) (libdir bindir : List Char) :
    Option (List (List Char)) :=
  if fs.isdir libdir && (fs.readable libdir && fs.executable libdir) then
    if sp.any (fun d => fs.pexists d && sf d libdir) then some sp
    else init_search_path_insert fs sf libdir bindir sp
  else some sp

theorem init_search_path_hit (fs : Fs) (sf : List Char → List Char → Bool)
    (sp : List (List Char)) (libdir bindir : List Char)
    (hg : (fs.isdir libdir && (fs.readable libdir && fs.executable libdir)) = true)
    (hany : sp.any (fun d => fs.pexists d && sf d libdir) = true) :
    init_search_path fs sf sp libdir bindir = some sp := by
  unfold init_search_path
  rw [if_pos hg, if_pos hany]

theorem init_search_path_miss (fs : Fs) (sf : List Char → List Char → Bool)
    (sp : List (List Char)) (libdir bindir : List Char)
    (hg : (fs.isdir libdir && (fs.readable libdir && fs.executable libdir)) = true)
    (hany : sp.any (fun d => fs.pexists d && sf d libdir) = false) :
    init_search_path fs sf sp libdir bindir =
      init_search_path_insert fs sf libdir bindir sp := by
  unfold init_search_path
  rw [if_pos hg, if_neg (by simp [hany])]

/-- C2: under the gating condition, a filesystem-identical entry leaves
the search path unchanged, otherwise the candidate is inserted right
after a first entry identical to the binary directory and appended
otherwise; and a second run — even with a lexically different name for
the same candidate directory — leaves the extended path unchanged, so
no duplicate entry is ever produced. -/
theorem init_search_path_dedup_idempotent
    (fs : Fs) (sf : List Char → List Char → Bool)
    (sp : List (List Char)) (libdir libdir2 bindir : List Char)
    (d0 : List Char) (rest : List (List Char))
    (hsp : sp = d0 :: rest)
    (hg : (fs.isdir libdir && (fs.readable libdir && fs.executable libdir)) = true)
    (hg2 : (fs.isdir libdir2 && (fs.readable libdir2 && fs.executable libdir2)) = true)
    (hex : fs.pexists libdir = true)
    (h12 : sf libdir libdir2 = true)
    (hcoh : ∀ d ∈ sp, fs.pexists d = true → sf d libdir = true → sf d libdir2 = true) :
    init_search_path fs sf sp libdir bindir =
      some (if sp.any (fun d => fs.pexists d && sf d libdir) then sp
        else if fs.pexists d0 && sf d0 bindir then d0 :: libdir :: rest
        else sp ++ [libdir])
    ∧ init_search_path fs sf
        ((init_search_path fs sf sp libdir bindir).getD []) libdir2 bindir =
      some ((init_search_path fs sf sp libdir bindir).getD []) := by
  subst hsp
  have hrun1 : ∃ sp1, init_search_path fs sf (d0 :: rest) libdir bindir = some sp1
      ∧ sp1 = (if (d0 :: rest).any (fun d => fs.pexists d && sf d libdir)
          then d0 :: rest
        else if fs.pexists d0 && sf d0 bindir then d0 :: libdir :: rest
        else (d0 :: rest) ++ [libdir])
      ∧ sp1.any (fun d => fs.pexists d && sf d libdir2) = true := by
    by_cases hany : (d0 :: rest).any (fun d => fs.pexists d && sf d libdir)
    · refine ⟨d0 :: rest, init_search_path_hit fs sf _ libdir bindir hg hany, ?_, ?_⟩
      · rw [if_pos hany]
      · obtain ⟨d, hd, hprop⟩ := List.any_eq_true.mp hany
        simp only [Bool.and_eq_true] at hprop
        refine List.any_eq_true.mpr ⟨d, hd, ?_⟩
        simp [hprop.1, hcoh d hd hprop.1 hprop.2]
    · have hany' : (d0 :: rest).any (fun d => fs.pexists d && sf d libdir) = false :=
        Bool.of_not_eq_true hany
      rw [init_search_path_miss fs sf _ libdir bindir hg hany']
      simp only [init_search_path_insert]
      by_cases hb : fs.pexists d0 && sf d0 bindir
      · refine ⟨d0 :: libdir :: rest, by rw [if_pos hb], ?_, ?_⟩
        · rw [if_neg (by simp [hany']), if_pos hb]
        · refine List.any_eq_true.mpr ⟨libdir, ?_, by simp [hex, h12]⟩
          exact List.mem_cons_of_mem d0 (List.mem_cons_self libdir rest)
      · refine ⟨(d0 :: rest) ++ [libdir], by rw [if_neg hb], ?_, ?_⟩
        · rw [if_neg (by simp [hany']), if_neg hb]
        · refine List.any_eq_true.mpr ⟨libdir, ?_, by simp [hex, h12]⟩
          exact List.mem_append_right _ (List.mem_cons_self libdir [])
  obtain ⟨sp1, h1, hform, hany2⟩ := hrun1
  constructor
  · rw [h1, hform]
  · rw [h1]
    simp only [Option.getD_some]
    exact init_search_path_hit fs sf sp1 libdir2 bindir hg2 hany2

/-- The candidate lib directory of the C2 witness. -/
def libW : List Char := "/r/lib".toList

/-- A lexically different name for the same lib directory (as through a
symlink), used for the second bootstrap run of the C2 witness. -/
def lib2W : List Char := "/r/x".toList

/-- The binary directory of the C2 witness. -/
def binW : List Char := "/r/bin".toList

/-- A pre-existing unrelated search-path entry of the C2 witness. -/
def usrLibW : List Char := "/usr/lib".toList

/-- The initial search path of the C2 witness. -/
def spW : List (List Char) := [binW, usrLibW]

/-- A concrete filesystem for the C2 witness. -/
def fsW2 : Fs :=
  { isdir := fun p => decide (p = libW) || decide (p = lib2W) || decide (p = binW)
    isfile := fun _ => false
    pexists := fun p => decide (p = libW) || decide (p = lib2W) ||
      decide (p = binW) || decide (p = usrLibW)
    readable := fun _ => true
    writable := fun _ => true
    executable := fun _ => true }

/-- The filesystem-identity relation of the C2 witness: equality, plus
the two names of the lib directory identified with each other. -/
def sfW : List Char → List Char → Bool := fun a b =>
  decide (a = b) || (decide (a = libW) && decide (b = lib2W)) ||
    (decide (a = lib2W) && decide (b = libW))

/-- Witness for C2 at a concrete environment: the first run inserts the
lib directory right after the binary directory, and a second run naming
the same directory through a different path string leaves the search
path unchanged. -/
theorem init_search_path_dedup_idempotent_witness :
    spW = binW :: [usrLibW]
    ∧ (fsW2.isdir libW && (fsW2.readable libW && fsW2.executable libW)) = true
    ∧ (fsW2.isdir lib2W && (fsW2.readable lib2W && fsW2.executable lib2W)) = true
    ∧ fsW2.pexists libW = true
    ∧ sfW libW lib2W = true
    ∧ (∀ d ∈ spW, fsW2.pexists d = true → sfW d libW = true → sfW d lib2W = true)
    ∧ init_search_path fsW2 sfW spW libW binW = some [binW, libW, usrLibW]
    ∧ init_search_path fsW2 sfW
        ((init_search_path fsW2 sfW spW libW binW).getD []) lib2W binW =
      some ((init_search_path fsW2 sfW spW libW binW).getD []) := by
  have T := init_search_path_dedup_idempotent fsW2 sfW spW libW lib2W binW binW
    [usrLibW] rfl (by decide) (by decide) (by decide) (by decide) (by decide)
  exact ⟨rfl, by decide, by decide, by decide, by decide, by decide,
    T.1.trans (by decide), T.2⟩
